import Mathlib

/-!
Shallow embedding of the invoice backend (`src/models/Invoice.js`): the
Sequelize `Invoice` model with its normalizing setters and column defaults,
and the Express router operations (create, update, delete, list, search,
detail fetch, and the two PDF attachment routes).  HTTP mechanics, the
validation library and authentication are external collaborators: every
operation receives an already-authenticated principal, an already-validated
body, and (where the route uses `upload.single`) an optional in-memory file.
Identifier and timestamp generation are passed in explicitly.
-/

namespace BillingSpec

/-- A trusted authenticated principal, as produced by the authentication
collaborator: a `role` (admin or other) and an `email` (`req.user`). -/
structure Principal where
  role : String
  email : String
deriving Repr, DecidableEq

/-- An in-memory uploaded file as supplied by the upload middleware
(`req.file`): raw bytes, original client file name, declared mime type and
byte size. -/
structure UploadFile where
  buffer : List Nat
  originalname : String
  mimetype : String
  size : Nat
deriving Repr, DecidableEq

/-- An invoice record, mirroring the columns of the Sequelize model: id,
invoiceNumber (normalized by its setter), customerEmail (normalized by its
setter), dates as numeric timestamps, paymentStatus, the optional pdf
columns, the decimal amount kept as its string form, and createdAt. -/
structure Invoice where
  id : String
  invoiceNumber : String
  customerEmail : String
  invoiceDate : Nat
  dueDate : Nat
  paymentStatus : String
  pdfUrl : Option String
  pdfData : Option (List Nat)
  pdfFileName : Option String
  pdfMimeType : Option String
  pdfSize : Option Nat
  invoiceAmount : String
  createdAt : Nat
deriving Repr, DecidableEq

/-- Distinct failure outcomes surfaced by the operations (the spec's error
taxonomy, plus the admin gate rejection of the `requireAdmin` middleware). -/
inductive ApiError where
  | ValidationError
  | DuplicateKey
  | NotFound
  | AttachmentMissing
  | AccessDenied
  | AdminRequired
  | UpstreamFailure
deriving Repr, DecidableEq

/-- JavaScript `String.prototype.trim` on a character list: whitespace
stripped from both ends. -/
def jsTrimList (cs : List Char) : List Char :=
  ((cs.dropWhile Char.isWhitespace).reverse.dropWhile Char.isWhitespace).reverse

/-- JavaScript `s.trim()`. -/
def jsTrim (s : String) : String :=
  String.mk (jsTrimList s.toList)

/-- JavaScript `s.toLowerCase()` (ASCII case mapping). -/
def jsToLower (s : String) : String :=
  String.mk (s.toList.map Char.toLower)

/-- JavaScript `s.toUpperCase()` (ASCII case mapping). -/
def jsToUpper (s : String) : String :=
  String.mk (s.toList.map Char.toUpper)

/-- The `invoiceNumber` column setter: `value.trim().toUpperCase()`. -/
def setInvoiceNumber (v : String) : String :=
  jsToUpper (jsTrim v)

/-- The `customerEmail` column setter: `value.toLowerCase().trim()`. -/
def setCustomerEmail (v : String) : String :=
  jsTrim (jsToLower v)

/-- JavaScript `o || d` for an optional string column: `null` and the empty
string are falsy. -/
def jsOrStr (o : Option String) (d : String) : String :=
  match o with
  | some s => if s = "" then d else s
  | none => d

/-- JavaScript `o || d` for an optional integer column: `null` and `0` are
falsy. -/
def jsOrNat (o : Option Nat) (d : Nat) : Nat :=
  match o with
  | some n => if n = 0 then d else n
  | none => d

/-- The persisted invoice table. -/
abbrev Store := List Invoice

/-- `Invoice.findByPk(id)`. -/
def findById (st : Store) (id : String) : Option Invoice :=
  st.find? (fun i => i.id == id)

/-- `Invoice.findOne({ where: { invoiceNumber } })` — the search route passes
the raw request parameter through, with no setter applied. -/
def findByNumberRaw (st : Store) (n : String) : Option Invoice :=
  st.find? (fun i => i.invoiceNumber == n)

/-- Whether the unique index on `invoiceNumber` already holds this value. -/
def numberExists (st : Store) (n : String) : Bool :=
  st.any (fun i => i.invoiceNumber == n)

/-- Modelled from the spec: the `requireAdmin` middleware
(`src/middleware/auth.js`, not part of the provided sources) admits exactly
the principals whose role is `admin`; per the spec the admin-only
operations are gated on this before anything else runs. -/
def isAdmin (p : Principal) : Bool :=
  p.role == "admin"

/-- The in-route access check of the detail route and both pdf routes:
`req.user.role !== 'admin' && req.user.email !== invoice.customerEmail`
denies; access is permitted when the principal is admin or its email is
(exactly) the stored customerEmail. -/
def canAccess (p : Principal) (inv : Invoice) : Bool :=
  isAdmin p || p.email == inv.customerEmail

/-- The access rule as the spec words it, for comparison with `canAccess`:
an admin may access any invoice; a non-admin may access an invoice only if
its email, case-normalized (the email normalization), equals the invoice's
`customerEmail`. -/
def canAccessSpecRule (p : Principal) (inv : Invoice) : Bool :=
  isAdmin p || setCustomerEmail p.email == inv.customerEmail

/-- The attachment-excluded projection: `delete responseInvoice.pdfData` /
`attributes: { exclude: ['pdfData'] }`. -/
def stripPdfData (inv : Invoice) : Invoice :=
  { inv with pdfData := none }

/-- The validated create request body: required invoiceNumber,
customerEmail, dueDate and invoiceAmount; optional invoiceDate and
paymentStatus (the route defaults the latter to `Unpaid`). -/
structure CreateBody where
  invoiceNumber : String
  customerEmail : String
  invoiceDate : Option Nat
  dueDate : Nat
  paymentStatus : Option String
  invoiceAmount : String
deriving Repr, DecidableEq

/-- The record built by `Invoice.create(invoiceData)`: the route fills
`invoiceDate: invoiceDate || new Date()` and, when a file is present, the
four pdf columns from the upload; the column setters normalize
invoiceNumber and customerEmail; `pdfMimeType` takes its column default
`application/pdf` when the create payload leaves it undefined; the other
pdf columns and `pdfUrl` default to null. -/
def buildCreated (b : CreateBody) (file : Option UploadFile) (newId : String)
    (now : Nat) : Invoice :=
  { id := newId
    invoiceNumber := setInvoiceNumber b.invoiceNumber
    customerEmail := setCustomerEmail b.customerEmail
    invoiceDate := b.invoiceDate.getD now
    dueDate := b.dueDate
    paymentStatus := b.paymentStatus.getD "Unpaid"
    pdfUrl := none
    pdfData := file.map (fun f => f.buffer)
    pdfFileName := file.map (fun f => f.originalname)
    pdfMimeType := match file with
      | some f => some f.mimetype
      | none => some "application/pdf"
    pdfSize := file.map (fun f => f.size)
    invoiceAmount := b.invoiceAmount
    createdAt := now }

/-- `POST /` — admin-gated create with optional PDF upload.  On a unique
index collision on the normalized invoiceNumber the store rejects and
nothing is persisted.  The handler's success response serializes `invoice`
itself (the stripped copy it builds is not the value it sends), so the
returned representation is the full record.  The store is kept
newest-created-first, matching the `createdAt DESC` list order. -/
def createInvoice (st : Store) (p : Principal) (b : CreateBody)
    (file : Option UploadFile) (newId : String) (now : Nat) :
    Except ApiError Invoice × Store :=
  if isAdmin p then
    let inv := buildCreated b file newId now
    if numberExists st inv.invoiceNumber then (.error .DuplicateKey, st)
    else (.ok inv, inv :: st)
  else (.error .AdminRequired, st)

/-- The update request body as the handler consumes it: the route spreads
the whole body (`const updates = { ...req.body }`) and the validator chain
strips nothing, so besides the six declared metadata fields the body can
carry the pdf columns (pdfUrl, pdfData, pdfFileName, pdfMimeType, pdfSize)
directly.  Each field is optional: `some v` means the body carries the
field with value `v`, `none` that it is absent.  The primary key and the
store-managed timestamps are not modelled as body-writable. -/
structure UpdateBody where
  invoiceNumber : Option String
  customerEmail : Option String
  invoiceDate : Option Nat
  dueDate : Option Nat
  paymentStatus : Option String
  invoiceAmount : Option String
  pdfUrl : Option String
  pdfData : Option (List Nat)
  pdfFileName : Option String
  pdfMimeType : Option String
  pdfSize : Option Nat
deriving Repr, DecidableEq

/-- `Invoice.update(updates, ...)` applied to one record: provided fields
overwrite (column setters re-applied), absent fields keep their prior
values.  Body-carried pdf columns are merged like any other field; when a
file is present the route assigns all four attachment columns from the
upload after the body spread, overwriting any body-carried values. -/
def applyUpdate (inv : Invoice) (b : UpdateBody) (file : Option UploadFile) :
    Invoice :=
  { inv with
    invoiceNumber := match b.invoiceNumber with
      | some v => setInvoiceNumber v
      | none => inv.invoiceNumber
    customerEmail := match b.customerEmail with
      | some v => setCustomerEmail v
      | none => inv.customerEmail
    invoiceDate := b.invoiceDate.getD inv.invoiceDate
    dueDate := b.dueDate.getD inv.dueDate
    paymentStatus := b.paymentStatus.getD inv.paymentStatus
    invoiceAmount := b.invoiceAmount.getD inv.invoiceAmount
    pdfUrl := match b.pdfUrl with
      | some v => some v
      | none => inv.pdfUrl
    pdfData := match file with
      | some f => some f.buffer
      | none => match b.pdfData with
        | some v => some v
        | none => inv.pdfData
    pdfFileName := match file with
      | some f => some f.originalname
      | none => match b.pdfFileName with
        | some v => some v
        | none => inv.pdfFileName
    pdfMimeType := match file with
      | some f => some f.mimetype
      | none => match b.pdfMimeType with
        | some v => some v
        | none => inv.pdfMimeType
    pdfSize := match file with
      | some f => some f.size
      | none => match b.pdfSize with
        | some v => some v
        | none => inv.pdfSize }

/-- Whether an update body carries none of the four attachment columns
(it may still carry any metadata field and pdfUrl). -/
def noAttachmentFields (b : UpdateBody) : Prop :=
  b.pdfData = none ∧ b.pdfFileName = none ∧ b.pdfMimeType = none
    ∧ b.pdfSize = none

/-- `PUT /:id` — admin-gated partial update with optional PDF upload.  A
zero update count yields NotFound; writing an invoiceNumber that collides
with a different record violates the unique index and nothing is
persisted; on success the handler strips `pdfData` from the response. -/
def updateInvoice (st : Store) (p : Principal) (id : String) (b : UpdateBody)
    (file : Option UploadFile) : Except ApiError Invoice × Store :=
  if isAdmin p then
    match findById st id with
    | none => (.error .NotFound, st)
    | some inv =>
      let inv' := applyUpdate inv b file
      if b.invoiceNumber.isSome
          && st.any (fun j => j.id != inv.id && j.invoiceNumber == inv'.invoiceNumber) then
        (.error .DuplicateKey, st)
      else
        (.ok (stripPdfData inv'),
         st.map (fun j => if j.id == id then inv' else j))
  else (.error .AdminRequired, st)

/-- `DELETE /:id` — admin-gated hard delete; a zero destroy count yields
NotFound. -/
def deleteInvoice (st : Store) (p : Principal) (id : String) :
    Except ApiError Unit × Store :=
  if isAdmin p then
    if st.any (fun i => i.id == id) then
      (.ok (), st.filter (fun i => i.id != id))
    else (.error .NotFound, st)
  else (.error .AdminRequired, st)

/-- `GET /:id` — detail fetch: NotFound when no record, then the in-route
access check, then the record with `pdfData` excluded. -/
def getInvoiceDetail (st : Store) (p : Principal) (id : String) :
    Except ApiError Invoice :=
  match findById st id with
  | none => .error .NotFound
  | some inv =>
    if canAccess p inv then .ok (stripPdfData inv) else .error .AccessDenied

/-- The two attachment routes differ only in the Content-Disposition they
set: `GET /:id/pdf` forces a download, `GET /:id/pdf/view` renders inline. -/
inductive PdfMode where
  | download
  | view
deriving Repr, DecidableEq

/-- What an attachment route sends on success: the raw bytes and the
response headers Content-Type, Content-Length, the file name placed in the
Content-Disposition, and whether that disposition is `attachment` (true)
or `inline` (false). -/
structure AttachmentResponse where
  bytes : List Nat
  contentType : String
  contentLength : Nat
  filename : String
  dispositionAttachment : Bool
deriving Repr, DecidableEq

/-- `GET /:id/pdf` and `GET /:id/pdf/view`: NotFound when no record, then
the access check, then 404 `PDF not found for this invoice` when no
`pdfData` is stored; on success Content-Type is
`invoice.pdfMimeType || 'application/pdf'`, Content-Length is
`invoice.pdfSize || invoice.pdfData.length`, the file name is
`invoice.pdfFileName` with fallback `invoice-` ++ invoiceNumber ++ `.pdf`,
and the disposition is per mode. -/
def getAttachment (st : Store) (p : Principal) (id : String) (mode : PdfMode) :
    Except ApiError AttachmentResponse :=
  match findById st id with
  | none => .error .NotFound
  | some inv =>
    if canAccess p inv then
      match inv.pdfData with
      | none => .error .AttachmentMissing
      | some bytes =>
        .ok { bytes := bytes
              contentType := jsOrStr inv.pdfMimeType "application/pdf"
              contentLength := jsOrNat inv.pdfSize bytes.length
              filename := jsOrStr inv.pdfFileName
                ("invoice-" ++ inv.invoiceNumber ++ ".pdf")
              dispositionAttachment := mode == PdfMode.download }
    else .error .AccessDenied

/-- `GET /search/:invoiceNumber` — any authenticated principal; the raw
route parameter is matched against the stored column; `pdfData` excluded. -/
def searchByNumber (st : Store) (p : Principal) (n : String) :
    Except ApiError Invoice :=
  match findByNumberRaw st n with
  | none => .error .NotFound
  | some inv => .ok (stripPdfData inv)

/-- `GET /customer?email=` — any authenticated principal; raw equality on
the stored customerEmail; `pdfData` excluded. -/
def listByCustomer (st : Store) (p : Principal) (email : String) :
    Except ApiError (List Invoice) :=
  .ok ((st.filter (fun i => i.customerEmail == email)).map stripPdfData)

/-- `GET /` — admin-gated full list, `pdfData` excluded. -/
def listAll (st : Store) (p : Principal) : Except ApiError (List Invoice) :=
  if isAdmin p then .ok (st.map stripPdfData)
  else .error .AdminRequired

/-- Stores observable through the exposed operations: every store obtained
from the empty table by a sequence of create, update and delete calls
(failed calls leave the store as they found it). -/
inductive Reachable : Store → Prop where
  | nil : Reachable []
  | createStep (st : Store) (p : Principal) (b : CreateBody)
      (file : Option UploadFile) (newId : String) (now : Nat) :
      Reachable st → Reachable (createInvoice st p b file newId now).2
  | updateStep (st : Store) (p : Principal) (id : String) (b : UpdateBody)
      (file : Option UploadFile) :
      Reachable st → Reachable (updateInvoice st p id b file).2
  | deleteStep (st : Store) (p : Principal) (id : String) :
      Reachable st → Reachable (deleteInvoice st p id).2

/-- Stores reachable when no update body injects attachment columns: as
`Reachable`, but every update step's body carries only declared metadata
fields (and possibly pdfUrl), never pdfData, pdfFileName, pdfMimeType or
pdfSize directly. -/
inductive MetaReachable : Store → Prop where
  | nil : MetaReachable []
  | createStep (st : Store) (p : Principal) (b : CreateBody)
      (file : Option UploadFile) (newId : String) (now : Nat) :
      MetaReachable st → MetaReachable (createInvoice st p b file newId now).2
  | updateStep (st : Store) (p : Principal) (id : String) (b : UpdateBody)
      (file : Option UploadFile) :
      noAttachmentFields b →
      MetaReachable st → MetaReachable (updateInvoice st p id b file).2
  | deleteStep (st : Store) (p : Principal) (id : String) :
      MetaReachable st → MetaReachable (deleteInvoice st p id).2

/-- The attachment-columns shape every persisted record in fact has:
either `pdfData`, `pdfFileName` and `pdfSize` are all set and `pdfMimeType`
is set, or those three are all unset and `pdfMimeType` holds its column
default `application/pdf`. -/
def attachmentConsistent (inv : Invoice) : Prop :=
  (inv.pdfData ≠ none ∧ inv.pdfFileName ≠ none ∧ inv.pdfSize ≠ none
    ∧ inv.pdfMimeType ≠ none)
  ∨ (inv.pdfData = none ∧ inv.pdfFileName = none ∧ inv.pdfSize = none
    ∧ inv.pdfMimeType = some "application/pdf")

/-- Sample admin principal. -/
def adminP : Principal :=
  { role := "admin", email := "admin@x.com" }

/-- Sample non-admin principal whose email is a case variant of a stored
customerEmail. -/
def userAX : Principal :=
  { role := "customer", email := "A@x.com" }

/-- Sample non-admin principal whose email exactly matches a stored
customerEmail. -/
def userOwn : Principal :=
  { role := "customer", email := "a@x.com" }

/-- Sample create body without attachment, with un-normalized
invoiceNumber and customerEmail. -/
def body1 : CreateBody :=
  { invoiceNumber := "inv-001"
    customerEmail := " A@x.com"
    invoiceDate := none
    dueDate := 100
    paymentStatus := none
    invoiceAmount := "100.00" }

/-- Sample uploaded PDF file. -/
def file1 : UploadFile :=
  { buffer := [37, 80]
    originalname := "doc.pdf"
    mimetype := "application/pdf"
    size := 2 }

/-- Sample create body used together with an attachment. -/
def bodyPdf : CreateBody :=
  { invoiceNumber := "inv-002"
    customerEmail := "b@x.com"
    invoiceDate := some 4
    dueDate := 200
    paymentStatus := some "Paid"
    invoiceAmount := "5.00" }

/-- The store after creating `body1` (no attachment) on an empty table. -/
def st1 : Store :=
  (createInvoice [] adminP body1 none "id-1" 0).2

/-- The record persisted for `body1`. -/
def inv1 : Invoice :=
  buildCreated body1 none "id-1" 0

/-- The store after creating `bodyPdf` with the `file1` attachment on an
empty table. -/
def st2 : Store :=
  (createInvoice [] adminP bodyPdf (some file1) "id-2" 5).2

/-- The record persisted for `bodyPdf` with `file1`. -/
def inv2 : Invoice :=
  buildCreated bodyPdf (some file1) "id-2" 5

/-- A trivial update body (no field provided). -/
def ub1 : UpdateBody :=
  { invoiceNumber := none, customerEmail := none, invoiceDate := none
    dueDate := none, paymentStatus := none, invoiceAmount := none
    pdfUrl := none, pdfData := none, pdfFileName := none
    pdfMimeType := none, pdfSize := none }

/-- An update body touching only dueDate and paymentStatus. -/
def ub2 : UpdateBody :=
  { invoiceNumber := none, customerEmail := none, invoiceDate := none
    dueDate := some 300, paymentStatus := some "Paid", invoiceAmount := none
    pdfUrl := none, pdfData := none, pdfFileName := none
    pdfMimeType := none, pdfSize := none }

/-- An update body that injects the attachment column pdfFileName directly
(no file upload), as the handler's body spread allows. -/
def ubEvil : UpdateBody :=
  { invoiceNumber := none, customerEmail := none, invoiceDate := none
    dueDate := none, paymentStatus := none, invoiceAmount := none
    pdfUrl := none, pdfData := none, pdfFileName := some "evil.pdf"
    pdfMimeType := none, pdfSize := none }

/-- The store after applying `ub2` (no new attachment) to the invoice that
holds the `file1` attachment. -/
def st3 : Store :=
  (updateInvoice st2 adminP "id-2" ub2 none).2

/-- A second uploaded file, used to replace an attachment wholesale. -/
def file2 : UploadFile :=
  { buffer := [80, 75, 3]
    originalname := "replacement.pdf"
    mimetype := "application/octet-stream"
    size := 3 }

/-- The store after replacing the `file1` attachment with `file2`. -/
def st4 : Store :=
  (updateInvoice st2 adminP "id-2" ub1 (some file2)).2

/-- The store after the injecting update `ubEvil` (no file) on the invoice
that has no attachment. -/
def st5 : Store :=
  (updateInvoice st1 adminP "id-1" ubEvil none).2

/-- The record left by `ubEvil` on the attachment-less invoice. -/
def inv5 : Invoice :=
  applyUpdate inv1 ubEvil none

/-- The store after the injecting update `ubEvil` (no file) on the invoice
that holds the `file1` attachment. -/
def st6 : Store :=
  (updateInvoice st2 adminP "id-2" ubEvil none).2

/-- The record left by `ubEvil` on the invoice that held `file1`. -/
def inv6 : Invoice :=
  applyUpdate inv2 ubEvil none

/-- A create body whose invoiceNumber is a case/whitespace variant of the
one in `body1`. -/
def body1dup : CreateBody :=
  { invoiceNumber := "INV-001 "
    customerEmail := "c@x.com"
    invoiceDate := none
    dueDate := 400
    paymentStatus := none
    invoiceAmount := "7.00" }

theorem findById_eq_some {st : Store} {id : String} {inv : Invoice}
    (h : findById st id = some inv) : inv ∈ st ∧ inv.id = id := by
  unfold findById at h
  refine ⟨List.mem_of_find?_eq_some h, ?_⟩
  have := List.find?_some h
  exact eq_of_beq this

theorem findById_cons_self {st : Store} {inv : Invoice} {id : String}
    (h : inv.id = id) : findById (inv :: st) id = some inv := by
  unfold findById
  simp [List.find?, h]

theorem findById_map_replace {st : Store} {id : String} {inv inv' : Invoice}
    (h : findById st id = some inv) (hid : inv'.id = inv.id) :
    findById (st.map (fun j => if j.id == id then inv' else j)) id = some inv' := by
  induction st with
  | nil => simp [findById] at h
  | cons a t ih =>
    unfold findById at h ⊢
    rcases ha : (a.id == id) with _ | _
    · simp only [List.find?, ha] at h
      simp only [List.map_cons, ha, Bool.false_eq_true, if_false, List.find?, ha]
      exact ih h
    · simp only [List.find?, ha] at h
      cases h
      have hinv : (inv'.id == id) = true := by rw [hid]; exact ha
      simp only [List.map_cons, ha, if_true, List.find?, hinv]

theorem createInvoice_ok {st : Store} {p : Principal} {b : CreateBody}
    {f : Option UploadFile} {newId : String} {now : Nat} {inv : Invoice} {st' : Store}
    (h : createInvoice st p b f newId now = (.ok inv, st')) :
    inv = buildCreated b f newId now ∧ st' = inv :: st ∧ isAdmin p = true ∧
      numberExists st inv.invoiceNumber = false := by
  unfold createInvoice at h
  by_cases hp : isAdmin p
  · simp only [hp, if_true] at h
    by_cases hex : numberExists st (buildCreated b f newId now).invoiceNumber
    · simp [hex] at h
    · simp only [hex, Bool.false_eq_true, if_false, Prod.mk.injEq] at h
      obtain ⟨h1, h2⟩ := h
      cases h1
      exact ⟨rfl, h2.symm, hp, by simpa using hex⟩
  · simp [hp] at h

theorem updateInvoice_ok {st : Store} {p : Principal} {id : String} {b : UpdateBody}
    {f : Option UploadFile} {r : Invoice} {st' : Store}
    (h : updateInvoice st p id b f = (.ok r, st')) :
    ∃ inv, findById st id = some inv ∧
      r = stripPdfData (applyUpdate inv b f) ∧
      st' = st.map (fun j => if j.id == id then applyUpdate inv b f else j) ∧
      isAdmin p = true := by
  unfold updateInvoice at h
  by_cases hp : isAdmin p
  · simp only [hp, if_true] at h
    cases hf : findById st id with
    | none => rw [hf] at h; simp at h
    | some inv =>
      rw [hf] at h
      simp only at h
      by_cases hdup : (b.invoiceNumber.isSome
          && st.any (fun j => j.id != inv.id && j.invoiceNumber == (applyUpdate inv b f).invoiceNumber)) = true
      · simp [hdup] at h
      · simp only [hdup, Bool.false_eq_true, if_false, Prod.mk.injEq, Except.ok.injEq] at h
        obtain ⟨h1, h2⟩ := h
        exact ⟨inv, rfl, h1.symm, h2.symm, hp⟩
  · simp [hp] at h

theorem deleteInvoice_snd (st : Store) (p : Principal) (id : String) :
    (deleteInvoice st p id).2 = st ∨
      (deleteInvoice st p id).2 = st.filter (fun i => i.id != id) := by
  unfold deleteInvoice
  by_cases hp : isAdmin p
  · simp only [hp, if_true]
    by_cases hex : st.any (fun i => i.id == id) = true
    · simp [hex]
    · simp [hex]
  · simp [hp]

theorem createInvoice_snd (st : Store) (p : Principal) (b : CreateBody)
    (f : Option UploadFile) (newId : String) (now : Nat) :
    (createInvoice st p b f newId now).2 = st ∨
      (createInvoice st p b f newId now).2 = buildCreated b f newId now :: st := by
  unfold createInvoice
  by_cases hp : isAdmin p
  · simp only [hp, if_true]
    by_cases hex : numberExists st (buildCreated b f newId now).invoiceNumber = true
    · simp [hex]
    · simp [hex]
  · simp [hp]

theorem updateInvoice_snd (st : Store) (p : Principal) (id : String) (b : UpdateBody)
    (f : Option UploadFile) :
    (updateInvoice st p id b f).2 = st ∨
      ∃ inv, findById st id = some inv ∧
        (updateInvoice st p id b f).2
          = st.map (fun j => if j.id == id then applyUpdate inv b f else j) := by
  unfold updateInvoice
  by_cases hp : isAdmin p
  · simp only [hp, if_true]
    cases hf : findById st id with
    | none => simp
    | some inv =>
      simp only
      by_cases hdup : (b.invoiceNumber.isSome
          && st.any (fun j => j.id != inv.id && j.invoiceNumber == (applyUpdate inv b f).invoiceNumber)) = true
      · simp [hdup]
      · simp only [hdup, Bool.false_eq_true, if_false]
        exact Or.inr ⟨inv, rfl, rfl⟩
  · simp [hp]

theorem attachmentConsistent_buildCreated (b : CreateBody) (f : Option UploadFile)
    (newId : String) (now : Nat) : attachmentConsistent (buildCreated b f newId now) := by
  cases f with
  | none => right; simp [buildCreated]
  | some f => left; simp [buildCreated]

theorem attachmentConsistent_applyUpdate {inv : Invoice} {b : UpdateBody}
    (f : Option UploadFile) (hb : noAttachmentFields b)
    (h : attachmentConsistent inv) :
    attachmentConsistent (applyUpdate inv b f) := by
  obtain ⟨h1, h2, h3, h4⟩ := hb
  cases f with
  | none =>
    rcases h with h | h
    · left; simpa [applyUpdate, h1, h2, h3, h4] using h
    · right; simpa [applyUpdate, h1, h2, h3, h4] using h
  | some f => left; simp [applyUpdate]

theorem metaReachable_attachmentConsistent (st : Store) (h : MetaReachable st) :
    ∀ inv, inv ∈ st → attachmentConsistent inv := by
  induction h with
  | nil => intro inv h; simp at h
  | createStep st p b f newId now _ ih =>
    intro inv hmem
    rcases createInvoice_snd st p b f newId now with h2 | h2 <;> rw [h2] at hmem
    · exact ih inv hmem
    · rcases List.mem_cons.mp hmem with h3 | h3
      · rw [h3]; exact attachmentConsistent_buildCreated b f newId now
      · exact ih inv h3
  | updateStep st p id b f hb _ ih =>
    intro inv hmem
    rcases updateInvoice_snd st p id b f with h2 | ⟨j, hj, h2⟩ <;> rw [h2] at hmem
    · exact ih inv hmem
    · rcases List.mem_map.mp hmem with ⟨x, hx, hxe⟩
      by_cases hxi : (x.id == id) = true
      · rw [if_pos hxi] at hxe
        rw [← hxe]
        exact attachmentConsistent_applyUpdate f hb (ih j (findById_eq_some hj).1)
      · rw [if_neg hxi] at hxe
        rw [← hxe]
        exact ih x hx
  | deleteStep st p id _ ih =>
    intro inv hmem
    rcases deleteInvoice_snd st p id with h2 | h2 <;> rw [h2] at hmem
    · exact ih inv hmem
    · exact ih inv (List.mem_of_mem_filter hmem)


/-- C1 counterexample: the non-admin principal with email `A@x.com` is
permitted by the spec's case-normalized rule on the invoice whose stored
customerEmail is `a@x.com`, yet detail-fetch and both attachment-fetch
modes deny access, because the code compares the principal's email without
normalization. -/
theorem C1_counterexample :
    canAccessSpecRule userAX inv1 = true
    ∧ userAX.role ≠ "admin"
    ∧ findById st1 "id-1" = some inv1
    ∧ getInvoiceDetail st1 userAX "id-1" = .error .AccessDenied
    ∧ getAttachment st1 userAX "id-1" .download = .error .AccessDenied
    ∧ getAttachment st1 userAX "id-1" .view = .error .AccessDenied :=
  ⟨rfl, by decide, rfl, rfl, rfl, rfl⟩

/-- C1 amended: detail-fetch and both attachment-fetch modes permit access
exactly when the principal is admin or its email, taken verbatim, equals
the invoice's stored customerEmail (which the write path stores in
trimmed-lowercased form); denial surfaces as AccessDenied. -/
theorem C1_access_decision (st : Store) (p : Principal) (id : String) (inv : Invoice)
    (hf : findById st id = some inv) :
    (canAccess p inv = true ↔ (p.role = "admin" ∨ p.email = inv.customerEmail))
    ∧ (canAccess p inv = false →
        getInvoiceDetail st p id = .error .AccessDenied
        ∧ getAttachment st p id .download = .error .AccessDenied
        ∧ getAttachment st p id .view = .error .AccessDenied)
    ∧ (canAccess p inv = true →
        getInvoiceDetail st p id = .ok (stripPdfData inv)
        ∧ getAttachment st p id .download ≠ .error .AccessDenied
        ∧ getAttachment st p id .view ≠ .error .AccessDenied) := by
  refine ⟨?_, ?_, ?_⟩
  · simp [canAccess, isAdmin]
  · intro hc
    unfold getInvoiceDetail getAttachment
    rw [hf]
    simp [hc]
  · intro hc
    have hd : getInvoiceDetail st p id = .ok (stripPdfData inv) := by
      unfold getInvoiceDetail
      rw [hf]
      simp [hc]
    have ha : ∀ m, getAttachment st p id m ≠ .error .AccessDenied := by
      intro m
      unfold getAttachment
      rw [hf]
      simp only [hc, if_true]
      cases inv.pdfData <;> simp
    exact ⟨hd, ha .download, ha .view⟩

theorem C1_access_decision_witness :
    getInvoiceDetail st1 userOwn "id-1" = .ok (stripPdfData inv1)
    ∧ getAttachment st1 userOwn "id-1" .download ≠ .error .AccessDenied
    ∧ getAttachment st1 userOwn "id-1" .view ≠ .error .AccessDenied :=
  (C1_access_decision st1 userOwn "id-1" inv1 rfl).2.2 rfl

/-- C2: the create handler computes a pdfData-stripped copy but serializes
the full record, so creating an invoice with an attachment returns the raw
pdfData bytes to the external caller. -/
theorem C2_create_response_leaks_pdfData :
    (createInvoice [] adminP bodyPdf (some file1) "id-2" 5).1 = .ok inv2
    ∧ inv2.pdfData = some [37, 80]
    ∧ inv2.pdfData ≠ none :=
  ⟨rfl, rfl, by decide⟩

/-- C10: search-by-number matches the raw query argument against the
stored (normalized) invoiceNumber: the invoice created as `inv-001` is
stored and searchable as `INV-001`, while querying the original
un-normalized form fails with NotFound. -/
theorem C10_search_no_normalization :
    findById st1 "id-1" = some inv1
    ∧ inv1.invoiceNumber = "INV-001"
    ∧ searchByNumber st1 userAX "inv-001" = .error .NotFound
    ∧ searchByNumber st1 userAX "INV-001" = .ok (stripPdfData inv1) :=
  ⟨rfl, rfl, rfl, rfl⟩


/-- C3: create, update, delete and full list reject every non-admin
principal outright, independent of the store and of any ownership, and
leave the store untouched; detail-fetch and both attachment-fetch modes
return AccessDenied exactly when the access check denies; search-by-number
and list-by-customer ignore the principal entirely and never produce an
AccessDenied or admin-gate rejection. -/
theorem C3_two_tier_gating (st : Store) (p : Principal) :
    (isAdmin p = false →
      ∀ (b : CreateBody) (f : Option UploadFile) (newId : String) (now : Nat)
        (id : String) (ub : UpdateBody) (uf : Option UploadFile),
        createInvoice st p b f newId now = (.error .AdminRequired, st)
        ∧ updateInvoice st p id ub uf = (.error .AdminRequired, st)
        ∧ deleteInvoice st p id = (.error .AdminRequired, st)
        ∧ listAll st p = .error .AdminRequired)
    ∧ (∀ (id : String) (inv : Invoice), findById st id = some inv →
        (getInvoiceDetail st p id = .error .AccessDenied ↔ canAccess p inv = false)
        ∧ (∀ mode, getAttachment st p id mode = .error .AccessDenied
            ↔ canAccess p inv = false))
    ∧ (∀ (q : Principal) (n : String),
        searchByNumber st p n = searchByNumber st q n
        ∧ searchByNumber st p n ≠ .error .AccessDenied
        ∧ searchByNumber st p n ≠ .error .AdminRequired)
    ∧ (∀ (q : Principal) (e : String),
        listByCustomer st p e = listByCustomer st q e
        ∧ ∃ l, listByCustomer st p e = .ok l) := by
  refine ⟨?_, ?_, ?_, ?_⟩
  · intro hp b f newId now id ub uf
    refine ⟨?_, ?_, ?_, ?_⟩ <;>
      simp [createInvoice, updateInvoice, deleteInvoice, listAll, hp]
  · intro id inv hf
    constructor
    · unfold getInvoiceDetail
      rw [hf]
      cases hc : canAccess p inv <;> simp [hc]
    · intro mode
      unfold getAttachment
      rw [hf]
      cases hc : canAccess p inv with
      | true =>
        simp only [hc, if_true]
        cases inv.pdfData <;> simp
      | false => simp [hc]
  · intro q n
    refine ⟨rfl, ?_, ?_⟩ <;>
      · unfold searchByNumber
        cases findByNumberRaw st n <;> simp
  · intro q e
    exact ⟨rfl, _, rfl⟩

theorem C3_two_tier_gating_witness :
    createInvoice st1 userAX body1 none "id-9" 7 = (.error .AdminRequired, st1)
    ∧ updateInvoice st1 userAX "id-1" ub1 none = (.error .AdminRequired, st1)
    ∧ deleteInvoice st1 userAX "id-1" = (.error .AdminRequired, st1)
    ∧ listAll st1 userAX = .error .AdminRequired :=
  (C3_two_tier_gating st1 userAX).1 rfl body1 none "id-9" 7 "id-1" ub1 none

/-- C5: both write paths store the trimmed-then-uppercased form of any
supplied invoiceNumber, and a second create whose invoiceNumber normalizes
to an already stored number fails with DuplicateKey and leaves the store
exactly as it was. -/
theorem C5_number_normalized_unique :
    (∀ (st : Store) (p : Principal) (b : CreateBody) (f : Option UploadFile)
        (newId : String) (now : Nat) (inv : Invoice) (st' : Store),
      createInvoice st p b f newId now = (.ok inv, st') →
        inv.invoiceNumber = jsToUpper (jsTrim b.invoiceNumber))
    ∧ (∀ (st : Store) (p : Principal) (id : String) (b : UpdateBody)
        (f : Option UploadFile) (r : Invoice) (st' : Store) (v : String),
      b.invoiceNumber = some v → updateInvoice st p id b f = (.ok r, st') →
        r.invoiceNumber = jsToUpper (jsTrim v))
    ∧ (∀ (st : Store) (p : Principal) (b : CreateBody) (f : Option UploadFile)
        (newId : String) (now : Nat) (inv : Invoice) (st' : Store)
        (p' : Principal) (b' : CreateBody) (f' : Option UploadFile)
        (newId' : String) (now' : Nat),
      createInvoice st p b f newId now = (.ok inv, st') →
      isAdmin p' = true →
      jsToUpper (jsTrim b'.invoiceNumber) = inv.invoiceNumber →
        createInvoice st' p' b' f' newId' now' = (.error .DuplicateKey, st')) := by
  refine ⟨?_, ?_, ?_⟩
  · intro st p b f newId now inv st' h
    obtain ⟨h1, -, -, -⟩ := createInvoice_ok h
    rw [h1]
    rfl
  · intro st p id b f r st' v hv h
    obtain ⟨j, -, h1, -, -⟩ := updateInvoice_ok h
    rw [h1]
    simp [stripPdfData, applyUpdate, hv, setInvoiceNumber]
  · intro st p b f newId now inv st' p' b' f' newId' now' h hp' hnum
    obtain ⟨h1, h2, -, -⟩ := createInvoice_ok h
    have hbn : (buildCreated b' f' newId' now').invoiceNumber = inv.invoiceNumber := by
      rw [← hnum]
      rfl
    have hex : numberExists st' (buildCreated b' f' newId' now').invoiceNumber = true := by
      rw [h2, hbn]
      simp [numberExists]
    unfold createInvoice
    simp [hp', hex]

theorem C5_number_normalized_unique_witness :
    inv1.invoiceNumber = jsToUpper (jsTrim "inv-001")
    ∧ createInvoice st1 adminP body1dup none "id-3" 9 = (.error .DuplicateKey, st1) :=
  ⟨C5_number_normalized_unique.1 [] adminP body1 none "id-1" 0 inv1 st1 rfl,
   C5_number_normalized_unique.2.2 [] adminP body1 none "id-1" 0 inv1 st1
     adminP body1dup none "id-3" 9 rfl rfl rfl⟩


/-- C4 counterexample: two observable records refute the four-field
all-or-nothing.  An invoice created without any PDF upload has pdfData,
pdfFileName and pdfSize unset while pdfMimeType is set (its column default
`application/pdf`); and a no-file update whose body injects pdfFileName
(the handler spreads the whole request body) leaves a record with
pdfFileName set while pdfData and pdfSize stay unset. -/
theorem C4_counterexample :
    (Reachable st1
      ∧ findById st1 "id-1" = some inv1
      ∧ inv1.pdfMimeType = some "application/pdf"
      ∧ inv1.pdfData = none
      ∧ inv1.pdfFileName = none
      ∧ inv1.pdfSize = none)
    ∧ (Reachable st5
      ∧ findById st5 "id-1" = some inv5
      ∧ inv5.pdfFileName = some "evil.pdf"
      ∧ inv5.pdfData = none
      ∧ inv5.pdfSize = none) :=
  ⟨⟨Reachable.createStep [] adminP body1 none "id-1" 0 Reachable.nil,
    rfl, rfl, rfl, rfl, rfl⟩,
   ⟨Reachable.updateStep st1 adminP "id-1" ubEvil none
      (Reachable.createStep [] adminP body1 none "id-1" 0 Reachable.nil),
    rfl, rfl, rfl, rfl⟩⟩

/-- C4 amended: in every store reachable without body-injected attachment
columns, each invoice either has pdfData, pdfFileName and pdfSize all set
(after an upload) with pdfMimeType also set, or has those three all unset
with pdfMimeType holding its column default `application/pdf`; an update
body that carries attachment columns directly (which the handler's body
spread admits) can break this, as the counterexample shows. -/
theorem C4_attachment_all_or_nothing (st : Store) (h : MetaReachable st) :
    ∀ inv, inv ∈ st → attachmentConsistent inv :=
  metaReachable_attachmentConsistent st h

theorem C4_attachment_all_or_nothing_witness : attachmentConsistent inv2 :=
  C4_attachment_all_or_nothing st2
    (MetaReachable.createStep [] adminP bodyPdf (some file1) "id-2" 5 MetaReachable.nil)
    inv2 (by decide)

/-- C6 counterexample: a no-file update whose body injects pdfFileName
(which the handler's body spread admits) changes the stored attachment's
file name even though no new attachment file was supplied: the invoice
holding `doc.pdf` ends up with pdfFileName `evil.pdf` while its bytes stay
the old ones. -/
theorem C6_counterexample :
    findById st2 "id-2" = some inv2
    ∧ inv2.pdfFileName = some "doc.pdf"
    ∧ updateInvoice st2 adminP "id-2" ubEvil none
        = (.ok (stripPdfData inv6), st6)
    ∧ findById st6 "id-2" = some inv6
    ∧ inv6.pdfFileName = some "evil.pdf"
    ∧ inv6.pdfData = inv2.pdfData
    ∧ some "evil.pdf" ≠ inv2.pdfFileName :=
  ⟨rfl, rfl, rfl, rfl, rfl, rfl, by decide⟩

/-- C6 amended: an update that carries no new file and whose body carries
none of the attachment columns leaves all four attachment sub-fields of
the stored record exactly as they were, merges each provided field (with
the column setters re-applied to invoiceNumber and customerEmail), and
keeps every unspecified field at its prior value; a body that injects
attachment columns directly is outside this frame, as the counterexample
shows. -/
theorem C6_update_without_file_frame (st : Store) (p : Principal) (id : String)
    (b : UpdateBody) (r : Invoice) (st' : Store) (inv : Invoice)
    (hf : findById st id = some inv)
    (hb : noAttachmentFields b)
    (h : updateInvoice st p id b none = (.ok r, st')) :
    ∃ inv', findById st' id = some inv'
      ∧ inv'.pdfData = inv.pdfData
      ∧ inv'.pdfFileName = inv.pdfFileName
      ∧ inv'.pdfMimeType = inv.pdfMimeType
      ∧ inv'.pdfSize = inv.pdfSize
      ∧ (∀ v, b.invoiceNumber = some v → inv'.invoiceNumber = jsToUpper (jsTrim v))
      ∧ (b.invoiceNumber = none → inv'.invoiceNumber = inv.invoiceNumber)
      ∧ (∀ v, b.customerEmail = some v → inv'.customerEmail = jsTrim (jsToLower v))
      ∧ (b.customerEmail = none → inv'.customerEmail = inv.customerEmail)
      ∧ (∀ v, b.invoiceDate = some v → inv'.invoiceDate = v)
      ∧ (b.invoiceDate = none → inv'.invoiceDate = inv.invoiceDate)
      ∧ (∀ v, b.dueDate = some v → inv'.dueDate = v)
      ∧ (b.dueDate = none → inv'.dueDate = inv.dueDate)
      ∧ (∀ v, b.paymentStatus = some v → inv'.paymentStatus = v)
      ∧ (b.paymentStatus = none → inv'.paymentStatus = inv.paymentStatus)
      ∧ (∀ v, b.invoiceAmount = some v → inv'.invoiceAmount = v)
      ∧ (b.invoiceAmount = none → inv'.invoiceAmount = inv.invoiceAmount)
      ∧ (∀ v, b.pdfUrl = some v → inv'.pdfUrl = some v)
      ∧ (b.pdfUrl = none → inv'.pdfUrl = inv.pdfUrl)
      ∧ inv'.id = inv.id ∧ inv'.createdAt = inv.createdAt := by
  obtain ⟨hb1, hb2, hb3, hb4⟩ := hb
  obtain ⟨j, hj, hr, hst, -⟩ := updateInvoice_ok h
  rw [hf] at hj
  cases hj
  refine ⟨applyUpdate inv b none, ?_, ?_⟩
  · rw [hst]
    exact findById_map_replace hf (by simp [applyUpdate])
  · refine ⟨?_, ?_, ?_, ?_, ?_, ?_, ?_, ?_, ?_, ?_, ?_, ?_, ?_, ?_, ?_, ?_, ?_, ?_, rfl, rfl⟩
    · simp [applyUpdate, hb1]
    · simp [applyUpdate, hb2]
    · simp [applyUpdate, hb3]
    · simp [applyUpdate, hb4]
    all_goals first
      | (intro v hv; simp [applyUpdate, hv, setInvoiceNumber, setCustomerEmail])
      | (intro hv; simp [applyUpdate, hv])

theorem C6_update_without_file_frame_witness :
    ∃ inv', findById st3 "id-2" = some inv'
      ∧ inv'.pdfData = inv2.pdfData
      ∧ inv'.pdfFileName = inv2.pdfFileName
      ∧ inv'.pdfMimeType = inv2.pdfMimeType
      ∧ inv'.pdfSize = inv2.pdfSize
      ∧ inv'.dueDate = 300
      ∧ inv'.paymentStatus = "Paid"
      ∧ inv'.invoiceAmount = inv2.invoiceAmount := by
  obtain ⟨inv', h1, h2, h3, h4, h5, -, -, -, -, -, -, h6, -, h7, -, -, h8, -, -, -, -⟩ :=
    C6_update_without_file_frame st2 adminP "id-2" ub2
      (stripPdfData (applyUpdate inv2 ub2 none)) st3 inv2 rfl ⟨rfl, rfl, rfl, rfl⟩ rfl
  exact ⟨inv', h1, h2, h3, h4, h5, h6 300 rfl, h7 "Paid" rfl, h8 rfl⟩

/-- C7: an update that carries a new file replaces all four attachment
sub-fields together with that upload's bytes, original name, mime type and
size: the stored record holds exactly the new values in all four. -/
theorem C7_update_with_file_replaces (st : Store) (p : Principal) (id : String)
    (b : UpdateBody) (f : UploadFile) (r : Invoice) (st' : Store) (inv : Invoice)
    (hf : findById st id = some inv)
    (h : updateInvoice st p id b (some f) = (.ok r, st')) :
    ∃ inv', findById st' id = some inv'
      ∧ inv'.pdfData = some f.buffer
      ∧ inv'.pdfFileName = some f.originalname
      ∧ inv'.pdfMimeType = some f.mimetype
      ∧ inv'.pdfSize = some f.size := by
  obtain ⟨j, hj, hr, hst, -⟩ := updateInvoice_ok h
  rw [hf] at hj
  cases hj
  refine ⟨applyUpdate inv b (some f), ?_, rfl, rfl, rfl, rfl⟩
  rw [hst]
  exact findById_map_replace hf (by simp [applyUpdate])

theorem C7_update_with_file_replaces_witness :
    ∃ inv', findById st4 "id-2" = some inv'
      ∧ inv'.pdfData = some [80, 75, 3]
      ∧ inv'.pdfFileName = some "replacement.pdf"
      ∧ inv'.pdfMimeType = some "application/octet-stream"
      ∧ inv'.pdfSize = some 3 :=
  C7_update_with_file_replaces st2 adminP "id-2" ub1 file2
    (stripPdfData (applyUpdate inv2 ub1 (some file2))) st4 inv2 rfl rfl


theorem getAttachment_found {st : Store} {id : String} {inv : Invoice}
    (hf : findById st id = some inv) (p : Principal) (mode : PdfMode) :
    getAttachment st p id mode =
      (if canAccess p inv then
        match inv.pdfData with
        | none => .error .AttachmentMissing
        | some bytes =>
          .ok { bytes := bytes
                contentType := jsOrStr inv.pdfMimeType "application/pdf"
                contentLength := jsOrNat inv.pdfSize bytes.length
                filename := jsOrStr inv.pdfFileName
                  ("invoice-" ++ inv.invoiceNumber ++ ".pdf")
                dispositionAttachment := mode == PdfMode.download }
      else .error .AccessDenied) := by
  unfold getAttachment
  rw [hf]

/-- C8: for both attachment modes the fetch reports NotFound when no
record exists, AccessDenied when the record exists but the access check
denies, AttachmentMissing when access is permitted but no pdfData is
stored; on success it returns the stored bytes, the stored mime type
(default `application/pdf` when unset), a content length equal to the
stored pdfSize (the stored byte count when pdfSize is unset), the stored
file name (fallback `invoice-` ++ invoiceNumber ++ `.pdf` when unset), and
the two modes agree on everything except the disposition intent. -/
theorem C8_attachment_fetch (st : Store) (p : Principal) (id : String) (mode : PdfMode) :
    (findById st id = none → getAttachment st p id mode = .error .NotFound)
    ∧ (∀ inv, findById st id = some inv → canAccess p inv = false →
        getAttachment st p id mode = .error .AccessDenied)
    ∧ (∀ inv, findById st id = some inv → canAccess p inv = true →
        inv.pdfData = none → getAttachment st p id mode = .error .AttachmentMissing)
    ∧ (∀ inv bytes, findById st id = some inv → canAccess p inv = true →
        inv.pdfData = some bytes →
        ∃ r, getAttachment st p id mode = .ok r
          ∧ r.bytes = bytes
          ∧ (∀ m, inv.pdfMimeType = some m → m ≠ "" → r.contentType = m)
          ∧ (inv.pdfMimeType = none → r.contentType = "application/pdf")
          ∧ (∀ n, inv.pdfSize = some n → n ≠ 0 → r.contentLength = n)
          ∧ (inv.pdfSize = none → r.contentLength = bytes.length)
          ∧ (∀ fn, inv.pdfFileName = some fn → fn ≠ "" → r.filename = fn)
          ∧ (inv.pdfFileName = none →
              r.filename = "invoice-" ++ inv.invoiceNumber ++ ".pdf")
          ∧ r.dispositionAttachment = (mode == PdfMode.download))
    ∧ (∀ r r', getAttachment st p id .download = .ok r →
        getAttachment st p id .view = .ok r' →
        r.bytes = r'.bytes ∧ r.contentType = r'.contentType
          ∧ r.contentLength = r'.contentLength ∧ r.filename = r'.filename
          ∧ r.dispositionAttachment = true ∧ r'.dispositionAttachment = false) := by
  refine ⟨?_, ?_, ?_, ?_, ?_⟩
  · intro hf
    unfold getAttachment
    rw [hf]
  · intro inv hf hc
    unfold getAttachment
    rw [hf]
    simp [hc]
  · intro inv hf hc hd
    unfold getAttachment
    rw [hf]
    simp [hc, hd]
  · intro inv bytes hf hc hd
    unfold getAttachment
    rw [hf]
    simp only [hc, if_true, hd]
    refine ⟨_, rfl, rfl, ?_, ?_, ?_, ?_, ?_, ?_, rfl⟩
    · intro m hm hne
      simp [hm, jsOrStr, hne]
    · intro hm
      simp [hm, jsOrStr]
    · intro n hn hne
      simp [hn, jsOrNat, hne]
    · intro hn
      simp [hn, jsOrNat]
    · intro fn hfn hne
      simp [hfn, jsOrStr, hne]
    · intro hfn
      simp [hfn, jsOrStr]
  · intro r r' h1 h2
    cases hf : findById st id with
    | none =>
      unfold getAttachment at h1
      rw [hf] at h1
      cases h1
    | some inv =>
      rw [getAttachment_found hf p PdfMode.download] at h1
      rw [getAttachment_found hf p PdfMode.view] at h2
      by_cases hc : canAccess p inv = true
      · rw [if_pos hc] at h1 h2
        cases hd : inv.pdfData with
        | none => rw [hd] at h1; cases h1
        | some bytes =>
          rw [hd] at h1 h2
          cases h1
          cases h2
          exact ⟨rfl, rfl, rfl, rfl, rfl, rfl⟩
      · rw [if_neg hc] at h1
        cases h1

theorem C8_attachment_fetch_witness :
    ∃ r, getAttachment st2 adminP "id-2" PdfMode.download = .ok r
      ∧ r.bytes = [37, 80]
      ∧ r.contentType = "application/pdf"
      ∧ r.contentLength = 2
      ∧ r.filename = "doc.pdf"
      ∧ r.dispositionAttachment = true := by
  obtain ⟨r, hok, hb, hmt, -, hsz, -, hfn, -, hd⟩ :=
    (C8_attachment_fetch st2 adminP "id-2" PdfMode.download).2.2.2.1 inv2 [37, 80]
      rfl rfl rfl
  exact ⟨r, hok, hb, hmt "application/pdf" rfl (by decide), hsz 2 rfl (by decide),
    hfn "doc.pdf" rfl (by decide), hd⟩

/-- C9: both write paths store the lowercased-then-trimmed form of any
supplied customerEmail, and reading the record back yields that normalized
value. -/
theorem C9_email_normalized_roundtrip :
    (∀ (st : Store) (p : Principal) (b : CreateBody) (f : Option UploadFile)
        (newId : String) (now : Nat) (inv : Invoice) (st' : Store),
      createInvoice st p b f newId now = (.ok inv, st') →
        findById st' newId = some inv
        ∧ inv.customerEmail = jsTrim (jsToLower b.customerEmail))
    ∧ (∀ (st : Store) (p : Principal) (id : String) (b : UpdateBody)
        (f : Option UploadFile) (r : Invoice) (st' : Store) (inv : Invoice) (v : String),
      b.customerEmail = some v → findById st id = some inv →
      updateInvoice st p id b f = (.ok r, st') →
        ∃ inv', findById st' id = some inv'
          ∧ inv'.customerEmail = jsTrim (jsToLower v)) := by
  constructor
  · intro st p b f newId now inv st' h
    obtain ⟨h1, h2, -, -⟩ := createInvoice_ok h
    constructor
    · rw [h2]
      exact findById_cons_self (by rw [h1]; rfl)
    · rw [h1]
      rfl
  · intro st p id b f r st' inv v hv hf h
    obtain ⟨j, hj, hr, hst, -⟩ := updateInvoice_ok h
    rw [hf] at hj
    cases hj
    refine ⟨applyUpdate inv b f, ?_, ?_⟩
    · rw [hst]
      exact findById_map_replace hf (by simp [applyUpdate])
    · simp [applyUpdate, hv, setCustomerEmail]

theorem C9_email_normalized_roundtrip_witness :
    findById st1 "id-1" = some inv1
    ∧ inv1.customerEmail = jsTrim (jsToLower " A@x.com") :=
  C9_email_normalized_roundtrip.1 [] adminP body1 none "id-1" 0 inv1 st1 rfl


end BillingSpec
